import Mathlib

/-!
Verification of the Call Intelligence Extraction Pipeline of the CallAnalysis
repository.  The TypeScript services (`piiMaskingService`, `transcriptionService`,
`analysisService`, the analyze POST route, and the `AnalysisViewer` drug-mention
extractor) are shallowly embedded as executable Lean functions; JavaScript
machine behaviour (string `split`, `substring`, `indexOf`, `||` truthiness,
regex scans) is modelled explicitly.  Times and durations are rationals (JS
floats on the values used here are exact binary fractions), scores are integers.
-/

namespace CallAnalysis

/-! ## JavaScript string primitives -/

/-- Contiguous-run containment scan over character lists. -/
def listHasInfix (needle : List Char) : List Char → Bool
  | [] => needle.isPrefixOf []
  | c :: rest => needle.isPrefixOf (c :: rest) || listHasInfix needle rest

/-- JS `String.prototype.includes`: contiguous substring containment. -/
def jsIncludes (s : String) (sub : String) : Bool :=
  listHasInfix sub.data s.data

/-- JS `String.prototype.toLowerCase` (ASCII range, as used by the sources). -/
def jsToLower (s : String) : String :=
  String.mk (s.data.map Char.toLower)

/-- Strip leading and trailing whitespace from a character list. -/
def listTrim (cs : List Char) : List Char :=
  ((cs.dropWhile Char.isWhitespace).reverse.dropWhile Char.isWhitespace).reverse

/-- JS `String.prototype.trim`. -/
def jsTrim (s : String) : String :=
  String.mk (listTrim s.data)

/-- Fuelled scan behind `jsSplit`: split at each leftmost occurrence of the
separator, non-overlapping, keeping boundary empties. -/
def jsSplitAux (sep : List Char) : Nat → List Char → List Char → List (List Char)
  | 0, rest, acc => [acc.reverse ++ rest]
  | _ + 1, [], acc => [acc.reverse]
  | fuel + 1, c :: rest, acc =>
    if sep ≠ [] ∧ sep.isPrefixOf (c :: rest) then
      acc.reverse :: jsSplitAux sep fuel ((c :: rest).drop sep.length) []
    else jsSplitAux sep fuel rest (c :: acc)

/-- JS `String.prototype.split` with a non-empty string separator. -/
def jsSplit (s : String) (sep : String) : List String :=
  (jsSplitAux sep.data (s.data.length + 1) s.data []).map String.mk

/-- JS numeric `a || rest`: a supplied number is kept unless it is `0`
(JS treats `0` as falsy), and an absent value falls through to `rest`. -/
def jsNumOr (a : Option Int) (rest : Int) : Int :=
  match a with
  | some x => if x = 0 then rest else x
  | none => rest

/-- JS string `a || rest`: a supplied string is kept unless it is empty
(JS treats the empty string as falsy). -/
def jsStrOr (a : Option String) (rest : String) : String :=
  match a with
  | some s => if s = "" then rest else s
  | none => rest

/-- Characters after the first occurrence of `d`, or `none` when `d` is absent:
models `s.indexOf(d) == -1 ? none : s.substring(s.indexOf(d) + 1)`. -/
def afterFirstChar : List Char → Char → Option (List Char)
  | [], _ => none
  | c :: cs, d => if c = d then some cs else afterFirstChar cs d

/-! ## Transcription segments (lib/services/transcriptionService.ts) -/

/-- One timestamped speaker-attributed span of transcript text. -/
structure Segment where
  speaker : String
  text : String
  startTime : ℚ
  endTime : ℚ
  confidence : Option ℚ
deriving DecidableEq, Repr

/-! ## PII masking (lib/services/piiMaskingService.ts) -/

/-- Options forwarded to the masking prompt; they do not affect the
realignment logic. -/
structure MaskingOptions where
  maskPatientNames : Bool := true
  maskPhoneNumbers : Bool := true
  maskAddresses : Bool := true
  maskEmails : Bool := true
  maskSSN : Bool := true
  maskDOB : Bool := true
  maskAccountNumbers : Bool := true
  maskCreditCardNumbers : Bool := true
  maskMRNs : Bool := true
  preserveMedications : Bool := true
deriving DecidableEq, Repr

/-- Metadata attached to a masking run. -/
structure MaskingMetadata where
  timestamp : String
  modelUsed : String
  itemsMasked : List (String × Nat)
deriving DecidableEq, Repr

/-- Result shape of `maskText` / `maskSegments`. -/
structure MaskedTranscript where
  maskedText : String
  maskedSegments : Option (List Segment)
  maskingMetadata : MaskingMetadata
deriving DecidableEq, Repr

/-- Outcome of one round-trip to an external model: the call either threw
(`fail`, with the JS `axios.isAxiosError` verdict), or returned a response
whose `content[0].text` is the carried value (`none` when the response
structure was unexpected). -/
inductive ApiResult (α : Type) where
  | fail (isAxiosError : Bool)
  | ok (value : α)
deriving DecidableEq, Repr

/-- One step of the scan behind `countMaskedItems`'s tag regex: given the
characters after an opening bracket, recognise `([A-Z_]+)(?:_\d+)?\]` with the
regex's backtracking behaviour and return the captured tag plus the rest. -/
def tryTag (cs : List Char) : Option (String × List Char) :=
  let isTagChar : Char → Bool := fun c => (decide ('A' ≤ c) && decide (c ≤ 'Z')) || c = '_'
  let run := cs.takeWhile isTagChar
  let rest := cs.drop run.length
  if run = [] then none
  else
    match rest with
    | ']' :: r => some (String.mk run, r)
    | c :: r =>
      if c.isDigit then
        let ds := (c :: r).takeWhile Char.isDigit
        let rest2 := (c :: r).drop ds.length
        match rest2 with
        | ']' :: r2 =>
          if run.getLast? = some '_' ∧ run.length ≥ 2 then
            some (String.mk (run.dropLast), r2)
          else none
        | _ => none
      else none
    | [] => none

/-- Fuelled scan collecting every bracketed tag of the masked text, mirroring
the global regex scan of `countMaskedItems`. -/
def scanTags : Nat → List Char → List String
  | 0, _ => []
  | _ + 1, [] => []
  | fuel + 1, c :: rest =>
    if c = '[' then
      match tryTag rest with
      | some (tag, rest2) => tag :: scanTags fuel rest2
      | none => scanTags fuel rest
    else scanTags fuel rest

/-- Insert-or-increment on an association list, preserving first-seen order. -/
def bumpCount : List (String × Nat) → String → List (String × Nat)
  | [], tag => [(tag, 1)]
  | (t, n) :: rest, tag =>
    if t = tag then (t, n + 1) :: rest else (t, n) :: bumpCount rest tag

/-- PiiMaskingService.countMaskedItems: frequency of each `[TAG]` /
`[TAG_n]` placeholder in the masked text. -/
def countMaskedItems (maskedText : String) : List (String × Nat) :=
  (scanTags (maskedText.data.length + 1) maskedText.data).foldl bumpCount []

/-- PiiMaskingService.maskText: on a successful model reply the reply text is
the masked text; when the request throws, or the response structure is
unexpected, the catch block returns the original text with the
`none - error occurred` metadata. -/
def maskText (text : String) (_options : MaskingOptions) (api : ApiResult (Option String))
    (now : String) : MaskedTranscript :=
  match api with
  | .ok (some masked) =>
    { maskedText := masked
      maskedSegments := none
      maskingMetadata :=
        { timestamp := now
          modelUsed := "claude-3-7-sonnet-20250219"
          itemsMasked := countMaskedItems masked } }
  | _ =>
    { maskedText := text
      maskedSegments := none
      maskingMetadata :=
        { timestamp := now
          modelUsed := "none - error occurred"
          itemsMasked := [] } }

/-- Realign one masked line onto one original segment: if the line contains a
colon, the segment keeps its metadata and takes the trimmed text after the
first colon; otherwise the original segment is returned unchanged. -/
def maskOne (seg : Segment) (line : String) : Segment :=
  match afterFirstChar line.data ':' with
  | some rest => { seg with text := jsTrim (String.mk rest) }
  | none => seg

/-- The per-index realignment loop of PiiMaskingService.maskSegments: segment
`i` is paired with masked line `i` when that line exists, and kept unchanged
otherwise. -/
def realignSegments : List Segment → List String → List Segment
  | [], _ => []
  | seg :: segs, [] => seg :: segs
  | seg :: segs, line :: lines => maskOne seg line :: realignSegments segs lines

/-- PiiMaskingService.maskSegments: join the segments as `speaker: text`
separated by blank lines, mask the combined text, then split the masked text
on the blank-line delimiter and realign it onto the original segments. -/
def maskSegments (segments : List Segment) (options : MaskingOptions)
    (api : ApiResult (Option String)) (now : String) : MaskedTranscript :=
  let combinedText :=
    String.intercalate "\n\n" (segments.map (fun s => s.speaker ++ ": " ++ s.text))
  let r := maskText combinedText options api now
  let maskedTextLines := jsSplit r.maskedText "\n\n"
  { maskedText := r.maskedText
    maskedSegments := some (realignSegments segments maskedTextLines)
    maskingMetadata := r.maskingMetadata }

/-! ## Transcript segmenter (TranscriptionService.processCall) -/

/-- Fuelled scan for the sentence-boundary split: a whitespace run is a
delimiter exactly when the character before it is `.`, `!` or `?`, matching
the split regex of processCall. -/
def sentSplitAux : Nat → List Char → List Char → List String
  | 0, rest, acc => [String.mk (acc.reverse ++ rest)]
  | _ + 1, [], acc => [String.mk acc.reverse]
  | fuel + 1, c :: rest, acc =>
    if c.isWhitespace ∧ (acc.head? = some '.' ∨ acc.head? = some '!' ∨ acc.head? = some '?') then
      String.mk acc.reverse :: sentSplitAux fuel (rest.dropWhile Char.isWhitespace) []
    else sentSplitAux fuel rest (c :: acc)

/-- processCall's sentence segmentation of the full transcript text. -/
def sentenceSplit (text : String) : List String :=
  sentSplitAux (text.data.length + 1) text.data []

/-- Fuelled scan for a JS whitespace-run split, keeping boundary empties. -/
def wsRunSplitAux : Nat → List Char → List Char → List String
  | 0, rest, acc => [String.mk (acc.reverse ++ rest)]
  | _ + 1, [], acc => [String.mk acc.reverse]
  | fuel + 1, c :: rest, acc =>
    if c.isWhitespace then
      String.mk acc.reverse :: wsRunSplitAux fuel (rest.dropWhile Char.isWhitespace) []
    else wsRunSplitAux fuel rest (c :: acc)

/-- JS `s.split(regex of one-or-more whitespace)`. -/
def jsSplitWs (s : String) : List String :=
  wsRunSplitAux (s.data.length + 1) s.data []

/-- Word count of one sentence, as computed by processCall. -/
def wordCount (sentence : String) : Nat :=
  (jsSplitWs sentence).length

/-- Estimated duration of one sentence: about half a second per word, at
least one second. -/
def segDuration (sentence : String) : ℚ :=
  max 1 ((wordCount sentence : ℚ) * (1 / 2))

/-- The segment-building loop of processCall: alternate speakers starting
with Agent, accumulate a running clock, fixed default confidence. -/
def buildSegments : List String → ℚ → Nat → List Segment
  | [], _, _ => []
  | sentence :: rest, currentTime, index =>
    { speaker := if index % 2 = 0 then "Agent" else "Customer"
      text := jsTrim sentence
      startTime := currentTime
      endTime := currentTime + segDuration sentence
      confidence := some (9 / 10) } :: buildSegments rest (currentTime + segDuration sentence) (index + 1)

/-- The full segmenter of TranscriptionService.processCall. -/
def processCallSegments (fullText : String) : List Segment :=
  buildSegments (sentenceSplit fullText) 0 0

/-! ## Analysis data model (lib/types/analysis.ts) -/

/-- One point of the sentiment timeline; passed through unchanged by the
normalizer. -/
structure TimelinePoint where
  time : ℚ
  score : Int
deriving DecidableEq, Repr

/-- One escalation point; passed through unchanged by the normalizer. -/
structure EscalationPoint where
  time : String
  text : String
  reason : String
deriving DecidableEq, Repr

/-- Canonical sentiment facet of an Analysis. -/
structure SentimentData where
  overallScore : Int
  timeline : List TimelinePoint
  emotionTags : List String
  escalationPoints : List EscalationPoint
deriving DecidableEq, Repr

/-- One structured drug mention. -/
structure DrugMentionRec where
  name : String
  count : Int
  context : String
deriving DecidableEq, Repr

/-- Canonical clinical facet of an Analysis. -/
structure ClinicalSummary where
  medicalConditions : List String
  drugMentions : List DrugMentionRec
  clinicalContext : String
deriving DecidableEq, Repr

/-- Canonical agent-performance facet of an Analysis. -/
structure AgentPerformance where
  communicationScore : Int
  adherenceToProtocol : Int
  empathyScore : Int
  efficiencyScore : Int
  improvementAreas : List String
  effectiveTechniques : List String
deriving DecidableEq, Repr

/-- One call flag. -/
structure FlagRec where
  type : String
  description : String
  severity : String
deriving DecidableEq, Repr

/-- Analysis metadata block. -/
structure AnalysisMetadata where
  analysisModel : String
  version : String
  processingTime : Nat
  createdAt : String
deriving DecidableEq, Repr

/-- The canonical Analysis record. -/
structure Analysis where
  id : String
  callId : String
  sentiment : SentimentData
  clinicalSummary : ClinicalSummary
  agentPerformance : AgentPerformance
  callSummary : String
  disposition : String
  followUpRequired : Bool
  flags : List FlagRec
  tags : List String
  metadata : AnalysisMetadata
deriving DecidableEq, Repr

/-! ## Model-reply JSON shapes (the key aliases the normalizer accepts).
A field is `none` when it is absent from the JSON, or, for list-valued
fields, when the supplied value is not an array. -/

/-- Sentiment facet as the model may emit it. -/
structure SentimentJson where
  overallScore : Option Int := none
  score : Option Int := none
  timeline : Option (List TimelinePoint) := none
  emotionTags : Option (List String) := none
  emotions : Option (List String) := none
  escalationPoints : Option (List EscalationPoint) := none
  escalations : Option (List EscalationPoint) := none
deriving DecidableEq, Repr

/-- Clinical facet as the model may emit it. -/
structure ClinicalJson where
  medicalConditions : Option (List String) := none
  conditions : Option (List String) := none
  drugMentions : Option (List DrugMentionRec) := none
  drugs : Option (List DrugMentionRec) := none
  clinicalContext : Option String := none
  context : Option String := none
deriving DecidableEq, Repr

/-- Agent-performance facet as the model may emit it. -/
structure PerformanceJson where
  communicationScore : Option Int := none
  communication : Option Int := none
  adherenceToProtocol : Option Int := none
  adherence : Option Int := none
  empathyScore : Option Int := none
  empathy : Option Int := none
  efficiencyScore : Option Int := none
  efficiency : Option Int := none
  improvementAreas : Option (List String) := none
  improvements : Option (List String) := none
  effectiveTechniques : Option (List String) := none
  techniques : Option (List String) := none
deriving DecidableEq, Repr

/-- One flag as the model may emit it. -/
structure FlagJson where
  type : Option String := none
  description : Option String := none
  desc : Option String := none
  severity : Option String := none
deriving DecidableEq, Repr

/-- The callDisposition sub-object as the model may emit it. -/
structure DispositionJson where
  category : Option String := none
  followUpRequired : Option Bool := none
  flags : Option (List FlagJson) := none
deriving DecidableEq, Repr

/-- The whole parsed model reply. -/
structure AnalysisJson where
  sentimentAnalysis : Option SentimentJson := none
  sentiment : Option SentimentJson := none
  clinicalAnalysis : Option ClinicalJson := none
  clinical : Option ClinicalJson := none
  agentPerformance : Option PerformanceJson := none
  performance : Option PerformanceJson := none
  callSummary : Option String := none
  summary : Option String := none
  callDisposition : Option DispositionJson := none
  disposition : Option String := none
  category : Option String := none
  followUpRequired : Option Bool := none
  flags : Option (List FlagJson) := none
  tagging : Option (List String) := none
  tags : Option (List String) := none
deriving DecidableEq, Repr

/-! ## Analysis normalizer (lib/services/analysisService.ts) -/

/-- AnalysisService.createDefaultSentimentData. -/
def createDefaultSentimentData : SentimentData :=
  { overallScore := 50, timeline := [], emotionTags := [], escalationPoints := [] }

/-- AnalysisService.createDefaultClinicalSummary. -/
def createDefaultClinicalSummary : ClinicalSummary :=
  { medicalConditions := [], drugMentions := [], clinicalContext := "" }

/-- AnalysisService.createDefaultAgentPerformance. -/
def createDefaultAgentPerformance : AgentPerformance :=
  { communicationScore := 0, adherenceToProtocol := 0, empathyScore := 0,
    efficiencyScore := 0, improvementAreas := [], effectiveTechniques := [] }

/-- AnalysisService.parseSentimentData. -/
def parseSentimentData (sentimentData : Option SentimentJson) : SentimentData :=
  match sentimentData with
  | none => createDefaultSentimentData
  | some d =>
    { overallScore := jsNumOr d.overallScore (jsNumOr d.score 50)
      timeline := d.timeline.getD []
      emotionTags := (d.emotionTags <|> d.emotions).getD []
      escalationPoints := (d.escalationPoints <|> d.escalations).getD [] }

/-- AnalysisService.parseClinicalSummary. -/
def parseClinicalSummary (clinicalData : Option ClinicalJson) : ClinicalSummary :=
  match clinicalData with
  | none => createDefaultClinicalSummary
  | some d =>
    { medicalConditions := (d.medicalConditions <|> d.conditions).getD []
      drugMentions := (d.drugMentions <|> d.drugs).getD []
      clinicalContext := jsStrOr d.clinicalContext (jsStrOr d.context "") }

/-- AnalysisService.parseAgentPerformance. -/
def parseAgentPerformance (performanceData : Option PerformanceJson) : AgentPerformance :=
  match performanceData with
  | none => createDefaultAgentPerformance
  | some d =>
    { communicationScore := jsNumOr d.communicationScore (jsNumOr d.communication 0)
      adherenceToProtocol := jsNumOr d.adherenceToProtocol (jsNumOr d.adherence 0)
      empathyScore := jsNumOr d.empathyScore (jsNumOr d.empathy 0)
      efficiencyScore := jsNumOr d.efficiencyScore (jsNumOr d.efficiency 0)
      improvementAreas := (d.improvementAreas <|> d.improvements).getD []
      effectiveTechniques := (d.effectiveTechniques <|> d.techniques).getD [] }

/-- AnalysisService.parseFlags. -/
def parseFlags (flags : Option (List FlagJson)) : List FlagRec :=
  match flags with
  | none => []
  | some fs =>
    fs.map (fun f =>
      { type := jsStrOr f.type "Unknown"
        description := jsStrOr f.description (jsStrOr f.desc "")
        severity :=
          match f.severity with
          | some s => if s = "low" ∨ s = "medium" ∨ s = "high" then s else "medium"
          | none => "medium" })

/-- JS `s.indexOf(c)`: first index or `-1`. -/
def jsIndexOfChar (cs : List Char) (c : Char) : Int :=
  match cs.findIdx? (· = c) with
  | some i => (i : Int)
  | none => -1

/-- JS `s.lastIndexOf(c)`: last index or `-1`. -/
def jsLastIndexOfChar (cs : List Char) (c : Char) : Int :=
  match cs.reverse.findIdx? (· = c) with
  | some k => (cs.length : Int) - 1 - (k : Int)
  | none => -1

/-- JS `s.substring(a, b)`: clamps both arguments into range and swaps them
when given out of order. -/
def jsSubstring (cs : List Char) (a b : Int) : List Char :=
  let n : Int := (cs.length : Int)
  let a2 := (max 0 (min a n)).toNat
  let b2 := (max 0 (min b n)).toNat
  (cs.drop (min a2 b2)).take (max a2 b2 - min a2 b2)

/-- The greedy brace-span regex of parseAnalysisResponse: the span from the
first opening brace to the last closing brace after it, when both exist. -/
def regexBraceSpan (cs : List Char) : Option (List Char) :=
  match cs.findIdx? (· = '{') with
  | none => none
  | some i =>
    let tail := cs.drop i
    match tail.reverse.findIdx? (· = '}') with
    | none => none
    | some k =>
      let j := tail.length - 1 - k
      if j = 0 then none else some (tail.take (j + 1))

/-- Fuelled global replace-with-empty: removes every non-overlapping
occurrence of the pattern, scanning left to right. -/
def removeAllAux (p : List Char) : Nat → List Char → List Char
  | 0, rest => rest
  | _ + 1, [] => []
  | fuel + 1, c :: rest =>
    if p ≠ [] ∧ p.isPrefixOf (c :: rest) then removeAllAux p fuel ((c :: rest).drop p.length)
    else c :: removeAllAux p fuel rest

/-- JS `s.replace(pattern-as-global-regex, empty string)`. -/
def jsRemoveAll (s : String) (pat : String) : String :=
  String.mk (removeAllAux pat.data (s.data.length + 1) s.data)

/-- The JSON-span extraction of parseAnalysisResponse: the brace-span regex,
then the substring fallback between the first opening and last closing brace
(which must still contain both kinds of brace, else the parse throws). -/
def extractJsonCandidate (analysisText : String) : Option String :=
  let cs := analysisText.data
  match regexBraceSpan cs with
  | some m => some (String.mk m)
  | none =>
    let possible := jsSubstring cs (jsIndexOfChar cs '{') (jsLastIndexOfChar cs '}' + 1)
    if possible.contains '{' ∧ possible.contains '}' then some (String.mk possible) else none

/-- The analysis fields the normalizer produces (id, callId and metadata are
attached by the caller). -/
structure ParsedAnalysis where
  sentiment : SentimentData
  clinicalSummary : ClinicalSummary
  agentPerformance : AgentPerformance
  callSummary : String
  disposition : String
  followUpRequired : Bool
  flags : List FlagRec
  tags : List String
deriving DecidableEq, Repr

/-- The catch-branch result of parseAnalysisResponse when extraction or JSON
parsing fails. -/
def parsingFailureResult : ParsedAnalysis :=
  { sentiment := createDefaultSentimentData
    clinicalSummary := createDefaultClinicalSummary
    agentPerformance := createDefaultAgentPerformance
    callSummary := "Error parsing analysis results"
    disposition := "Unknown"
    followUpRequired := false
    flags := []
    tags := ["parsing_error"] }

/-- The key-alias resolution of parseAnalysisResponse once JSON parsing
succeeded. -/
def normalizeAnalysisJson (j : AnalysisJson) : ParsedAnalysis :=
  let sentimentAnalysis := (j.sentimentAnalysis <|> j.sentiment).getD {}
  let clinicalAnalysis := (j.clinicalAnalysis <|> j.clinical).getD {}
  let agentPerf := (j.agentPerformance <|> j.performance).getD {}
  { sentiment := parseSentimentData (some sentimentAnalysis)
    clinicalSummary := parseClinicalSummary (some clinicalAnalysis)
    agentPerformance := parseAgentPerformance (some agentPerf)
    callSummary := jsStrOr j.callSummary (jsStrOr j.summary "")
    disposition := jsStrOr (j.callDisposition.bind DispositionJson.category)
      (jsStrOr j.disposition (jsStrOr j.category ""))
    followUpRequired := ((j.callDisposition.bind DispositionJson.followUpRequired).getD false
      || j.followUpRequired.getD false)
    flags := parseFlags ((j.callDisposition.bind DispositionJson.flags) <|> j.flags)
    tags := (j.tagging <|> j.tags).getD [] }

/-- AnalysisService.parseAnalysisResponse: extract a JSON-looking span,
strip Markdown code fences, parse it (the JSON parser is a parameter,
returning none exactly when `JSON.parse` would throw), and normalize;
every failure yields the parsing-error default instead of raising. -/
def parseAnalysisResponse (jsonParse : String → Option AnalysisJson)
    (analysisText : String) : ParsedAnalysis :=
  match extractJsonCandidate analysisText with
  | none => parsingFailureResult
  | some jsonMatch =>
    let cleanedJson := jsTrim (jsRemoveAll (jsRemoveAll jsonMatch "```json") "```")
    match jsonParse cleanedJson with
    | none => parsingFailureResult
    | some analysisJson => normalizeAnalysisJson analysisJson

/-- Transcription input of the analysis service. -/
structure Transcription where
  id : String
  callId : String
  fullText : String
  segments : List Segment
deriving DecidableEq, Repr

/-- Call metadata input of the analysis service. -/
structure Call where
  id : String
  s3AudioKey : String
  timestamp : String
  duration : Nat
  agentId : String
deriving DecidableEq, Repr

/-- Fuelled count of non-overlapping occurrences of a pattern, scanning left
to right, as a global regex match does. -/
def countOccAux (p : List Char) : Nat → List Char → Nat
  | 0, _ => 0
  | _ + 1, [] => 0
  | fuel + 1, c :: rest =>
    if p ≠ [] ∧ p.isPrefixOf (c :: rest) then 1 + countOccAux p fuel ((c :: rest).drop p.length)
    else countOccAux p fuel rest

/-- Number of occurrences of `pat` in `s`. -/
def countOccurrences (s pat : String) : Nat :=
  countOccAux pat.data (s.data.length + 1) s.data

/-- The drug vocabulary of createFallbackAnalysis. -/
def fallbackDrugNames : List (String × List String) :=
  [("Ozempic", ["ozempic", "o-zmpic", "ozep", "semaglutide"]),
   ("Metformin", ["metformin", "met forming"])]

/-- AnalysisService.createFallbackAnalysis: deterministic keyword-based
analysis used when the model call fails.  `freshId` stands for the generated
uuid and `now` for the creation timestamp. -/
def createFallbackAnalysis (transcription : Transcription) (call : Call)
    (freshId now : String) : Analysis :=
  let fullText := jsToLower transcription.fullText
  let drugMentions := fallbackDrugNames.filterMap (fun dn =>
    let count := dn.2.foldl (fun acc variation => acc + countOccurrences fullText variation) 0
    if count > 0 then
      some { name := dn.1, count := (count : Int), context := "Mentioned in conversation" }
    else none)
  let conditions :=
    (if jsIncludes fullText "diabetes" || jsIncludes fullText "diabetic"
      then ["Diabetes"] else []) ++
    (if jsIncludes fullText "type 1" then ["Type 1 Diabetes"] else []) ++
    (if jsIncludes fullText "type 2" then ["Type 2 Diabetes"] else [])
  let callSummary :=
    if jsIncludes fullText "denied" || jsIncludes fullText "denial" then
      "Inquiry about denied medication authorization for Ozempic."
    else "Inquiry about medication authorization status."
  { id := freshId
    callId := call.id
    sentiment :=
      { overallScore := 60, timeline := [], emotionTags := ["neutral", "concerned"],
        escalationPoints := [] }
    clinicalSummary :=
      { medicalConditions := conditions, drugMentions := drugMentions,
        clinicalContext := "Patient has diabetes and is seeking authorization for Ozempic after transitioning from Metformin." }
    agentPerformance :=
      { communicationScore := 70, adherenceToProtocol := 70, empathyScore := 65,
        efficiencyScore := 70, improvementAreas := [], effectiveTechniques := [] }
    callSummary := callSummary
    disposition := "Prior Authorization Follow-up"
    followUpRequired := true
    flags :=
      [{ type := "Authorization Denial"
         description := "Patient\x27s medication authorization was denied despite diabetes diagnosis"
         severity := "medium" }]
    tags := ["prior authorization", "diabetes", "medication denial", "ozempic"]
    metadata :=
      { analysisModel := "local-fallback", version := "1.0", processingTime := 0,
        createdAt := now } }

/-- AnalysisService.analyzeTranscription.  The api argument is the outcome of
the model round-trip (`ok` carries `content[0].text` when the response
structure is as expected).  An axios failure falls back to the local
analysis; a non-axios failure (including the unexpected-structure throw) is
re-raised out of the catch block as an error value. -/
def analyzeTranscription (jsonParse : String → Option AnalysisJson)
    (api : ApiResult (Option String)) (transcription : Transcription) (call : Call)
    (freshId now : String) : Except String Analysis :=
  match api with
  | .fail true => .ok (createFallbackAnalysis transcription call freshId now)
  | .fail false => .error "Failed to analyze transcription"
  | .ok none => .error "Failed to analyze transcription: Unexpected API response structure"
  | .ok (some analysisText) =>
    let p := parseAnalysisResponse jsonParse analysisText
    .ok
      { id := freshId
        callId := call.id
        sentiment := p.sentiment
        clinicalSummary := p.clinicalSummary
        agentPerformance := p.agentPerformance
        callSummary := p.callSummary
        disposition := p.disposition
        followUpRequired := p.followUpRequired
        flags := p.flags
        tags := p.tags
        metadata :=
          { analysisModel := "claude-3-7-sonnet-20250219", version := "sonnet",
            processingTime := 0, createdAt := now } }

/-! ## Heuristic drug-mention extractor (components/call-analysis/AnalysisViewer.tsx) -/

/-- JS word character (the regex class of word and boundary assertions). -/
def isWordChar (c : Char) : Bool :=
  c.isAlpha || c.isDigit || c = '_'

/-- Maximal word-character runs of a text, in order. -/
def wordTokensAux : List Char → List Char → List (List Char)
  | [], acc => if acc = [] then [] else [acc.reverse]
  | c :: rest, acc =>
    if isWordChar c then wordTokensAux rest (c :: acc)
    else if acc = [] then wordTokensAux rest []
    else acc.reverse :: wordTokensAux rest []

/-- Tokenize a text into maximal word-character runs. -/
def wordTokens (cs : List Char) : List (List Char) :=
  wordTokensAux cs []

/-- A token matched by the capitalized-brand-name regex: one upper-case
letter followed by at least two lower-case letters and nothing else (word
boundaries on both sides make partial-token matches impossible). -/
def isCapWord (t : List Char) : Bool :=
  match t with
  | c :: rest => c.isUpper && decide (rest.length ≥ 2) && rest.all Char.isLower
  | [] => false

/-- Common capitalized words excluded from brand-name candidates. -/
def capStoplist : List String :=
  ["The", "I", "A", "An", "And", "But", "Or", "Patient", "Doctor", "Agent",
   "Customer", "However"]

/-- Add to a JS Set modelled as a dedup list preserving insertion order. -/
def addUnique (l : List String) (s : String) : List String :=
  if s ∈ l then l else l ++ [s]

/-- The drug-indicator vocabulary of extractDrugMentionsFromContext. -/
def drugIndicators : List String :=
  ["medication", "drug", "prescription", "med", "dose", "pill", "tablet",
   "injection", "prescribed", "taking", "started", "switching to",
   "transitioned from", "switching from", "mg", "mcg", "approved for",
   "authorization for", "denied for"]

/-- Sentence punctuation class of the context splitter. -/
def isSentencePunct (c : Char) : Bool :=
  c == '.' || c == '!' || c == '?'

/-- Fuelled split on maximal runs of sentence punctuation, keeping boundary
empties as the JS regex split does. -/
def punctRunSplitAux : Nat → List Char → List Char → List String
  | 0, rest, acc => [String.mk (acc.reverse ++ rest)]
  | _ + 1, [], acc => [String.mk acc.reverse]
  | fuel + 1, c :: rest, acc =>
    if isSentencePunct c then
      String.mk acc.reverse :: punctRunSplitAux fuel (rest.dropWhile isSentencePunct) []
    else punctRunSplitAux fuel rest (c :: acc)

/-- Split a context into sentences at punctuation runs. -/
def splitSentencesOnPunct (context : String) : List String :=
  punctRunSplitAux (context.data.length + 1) context.data []

/-- JS `w.replace(one-of-comma-dot-semicolon-colon, empty)`: removes only the
first such character (the regex has no global flag). -/
def removeFirstPunctChar : List Char → List Char
  | [] => []
  | c :: rest =>
    if c == ',' || c == '.' || c == ';' || c == ':' then rest
    else c :: removeFirstPunctChar rest

/-- Candidate filter of step 2: longer than three characters and purely
alphabetic. -/
def candidateOk (w : List Char) : Bool :=
  decide (w.length > 3) && w ≠ [] && w.all Char.isAlpha

/-- Step 2 of the extractor for one sentence: for every indicator contained
in the lower-cased trimmed sentence, add the cleaned words immediately before
and after the indicator word as candidates. -/
def step2AddFromSentence (cands : List String) (sentence : String) : List String :=
  drugIndicators.foldl (fun cands indicator =>
    if jsIncludes (jsTrim (jsToLower sentence)) indicator then
      let words := jsSplitWs sentence
      match words.findIdx? (fun w => jsIncludes (jsToLower w) indicator) with
      | none => cands
      | some indicatorIndex =>
        let cands2 :=
          if indicatorIndex > 0 then
            let cleaned := removeFirstPunctChar ((words.get? (indicatorIndex - 1)).getD "").data
            if candidateOk cleaned then addUnique cands (String.mk cleaned) else cands
          else cands
        if indicatorIndex < words.length - 1 then
          let cleaned := removeFirstPunctChar ((words.get? (indicatorIndex + 1)).getD "").data
          if candidateOk cleaned then addUnique cands2 (String.mk cleaned) else cands2
        else cands2
    else cands) cands

/-- Case-insensitive whole-word match of `name` at position `i` of `cs`
(both neighbours must be non-word characters or the text edge). -/
def matchesWordAt (cs name : List Char) (i : Nat) : Bool :=
  name ≠ [] &&
  ((cs.drop i).take name.length).map Char.toLower == name.map Char.toLower &&
  (i == 0 || !isWordChar ((cs.get? (i - 1)).getD ' ')) &&
  !isWordChar ((cs.get? (i + name.length)).getD ' ')

/-- All whole-word match positions of `name` in `cs` (word boundaries make
overlapping matches impossible, so this equals the global regex match
count). -/
def wordMatchPositions (cs name : List Char) : List Nat :=
  (List.range cs.length).filter (matchesWordAt cs name)

/-- The context-snippet extraction around the first whole-word occurrence of
the drug name: about thirty characters before and seventy after, trimmed,
with ellipses marking truncation. -/
def drugContextSnippet (context : String) (name : String) : String :=
  let cs := context.data
  match wordMatchPositions cs name.data with
  | [] => "Mentioned in clinical context"
  | idx :: _ =>
    let start := idx - 30
    let stop := min cs.length (idx + name.data.length + 70)
    let snip0 := jsTrim (String.mk ((cs.drop start).take (stop - start)))
    let snip1 := if start > 0 then "..." ++ snip0 else snip0
    if stop < cs.length then snip1 ++ "..." else snip1

/-- AnalysisViewer's extractDrugMentionsFromContext: collect capitalized
brand-name candidates (minus a stoplist), add words adjacent to drug
indicators, then keep every candidate with a positive whole-word occurrence
count, pairing it with the count and a context snippet. -/
def extractDrugMentionsFromContext (context : String) : List DrugMentionRec :=
  if context = "" then []
  else
    let sentences :=
      (splitSentencesOnPunct context).filter (fun s => decide ((jsTrim s).data.length > 0))
    let capCands := (wordTokens context.data).foldl (fun acc t =>
      if isCapWord t ∧ String.mk t ∉ capStoplist then addUnique acc (String.mk t) else acc) []
    let allCands := sentences.foldl step2AddFromSentence capCands
    allCands.foldl (fun mentions drugName =>
      let count := (wordMatchPositions context.data drugName.data).length
      if count > 0 then
        mentions ++ [{ name := drugName, count := (count : Int),
                       context := drugContextSnippet context drugName }]
      else mentions) []

/-- The drug-mentions render block of AnalysisViewer: model-provided mentions
are displayed as-is; only when they are absent or empty and a non-empty
clinical context exists does the heuristic extractor run. -/
def displayedDrugMentions (analysisDrugMentions : Option (List DrugMentionRec))
    (clinicalContext : Option String) : List DrugMentionRec :=
  let drugMentions := analysisDrugMentions.getD []
  if drugMentions.length = 0 ∧ clinicalContext.getD "" ≠ "" then
    extractDrugMentionsFromContext (clinicalContext.getD "")
  else drugMentions

/-! ## Analyze POST route (app/api/calls/[id]/analyze/route.ts).
The route wraps its work in one database transaction: BEGIN, conditional
DELETE of the prior analysis and its derived rows, the analysis call, the
INSERTs, COMMIT; every caught error issues ROLLBACK, which restores the
pre-transaction state.  The state is modelled as the rows keyed by call id;
failures (the analysis call throwing, or any insert throwing) therefore
return the original state. -/

/-- Database rows relevant to the analyze route, keyed by call id. -/
structure DbState where
  analyses : List (String × String)
  drugRows : List (String × DrugMentionRec)
  flagRows : List (String × FlagRec)
deriving DecidableEq, Repr

/-- DELETE FROM t WHERE call_id equals the given id. -/
def deleteRowsFor {α : Type} (rows : List (String × α)) (callId : String) :
    List (String × α) :=
  rows.filter (fun r => r.1 != callId)

/-- SELECT rows WHERE call_id equals the given id. -/
def rowsFor {α : Type} (rows : List (String × α)) (callId : String) :
    List (String × α) :=
  rows.filter (fun r => r.1 == callId)

/-- The analyze POST handler's transactional body: delete the prior analysis
with its drug-mention and flag rows when one exists, run the analysis
(`analysisResult` is none when analyzeTranscription threw), insert the new
analysis row plus one row per drug mention and per flag
(`insertFailure` true models any insert query throwing), and commit; the
returned Bool is the commit verdict, and every failure rolls back to the
incoming state. -/
def analyzeRoutePost (db : DbState) (callId : String)
    (analysisResult : Option Analysis) (insertFailure : Bool) : DbState × Bool :=
  let db1 :=
    if db.analyses.any (fun r => r.1 == callId) then
      { analyses := deleteRowsFor db.analyses callId
        drugRows := deleteRowsFor db.drugRows callId
        flagRows := deleteRowsFor db.flagRows callId }
    else db
  match analysisResult with
  | none => (db, false)
  | some analysis =>
    if insertFailure then (db, false)
    else
      ({ analyses := db1.analyses ++ [(callId, analysis.id)]
         drugRows :=
           db1.drugRows ++ analysis.clinicalSummary.drugMentions.map (fun d => (callId, d))
         flagRows := db1.flagRows ++ analysis.flags.map (fun f => (callId, f)) }, true)

/-! ## Lemmas about the segmenter -/

theorem buildSegments_length (ss : List String) :
    ∀ t i, (buildSegments ss t i).length = ss.length := by
  induction ss with
  | nil => intro t i; rfl
  | cons s rest ih => intro t i; simp [buildSegments, ih]

theorem buildSegments_head_start (ss : List String) :
    ∀ t i s, (buildSegments ss t i).get? 0 = some s → s.startTime = t := by
  cases ss with
  | nil => intro t i s h; simp [buildSegments] at h
  | cons s0 rest =>
    intro t i s h
    simp only [buildSegments, List.get?] at h
    cases h; rfl

theorem buildSegments_speaker (ss : List String) :
    ∀ t i j s, (buildSegments ss t i).get? j = some s →
      s.speaker = if (i + j) % 2 = 0 then "Agent" else "Customer" := by
  induction ss with
  | nil => intro t i j s h; simp [buildSegments] at h
  | cons s0 rest ih =>
    intro t i j s h
    cases j with
    | zero =>
      simp only [buildSegments, List.get?] at h
      cases h; rfl
    | succ j2 =>
      simp only [buildSegments, List.get?] at h
      have := ih (t + segDuration s0) (i + 1) j2 s h
      rw [this]
      have : i + 1 + j2 = i + (j2 + 1) := by omega
      rw [this]

theorem buildSegments_duration (ss : List String) :
    ∀ t i j s sentence, ss.get? j = some sentence →
      (buildSegments ss t i).get? j = some s →
      s.endTime = s.startTime + segDuration sentence := by
  induction ss with
  | nil => intro t i j s sentence hsent _; simp at hsent
  | cons s0 rest ih =>
    intro t i j s sentence hsent h
    cases j with
    | zero =>
      simp only [List.get?] at hsent
      simp only [buildSegments, List.get?] at h
      cases hsent; cases h; rfl
    | succ j2 =>
      simp only [List.get?] at hsent
      simp only [buildSegments, List.get?] at h
      exact ih (t + segDuration s0) (i + 1) j2 s sentence hsent h

theorem buildSegments_confidence (ss : List String) :
    ∀ t i j s, (buildSegments ss t i).get? j = some s → s.confidence = some (9 / 10) := by
  induction ss with
  | nil => intro t i j s h; simp [buildSegments] at h
  | cons s0 rest ih =>
    intro t i j s h
    cases j with
    | zero =>
      simp only [buildSegments, List.get?] at h
      cases h; rfl
    | succ j2 =>
      simp only [buildSegments, List.get?] at h
      exact ih (t + segDuration s0) (i + 1) j2 s h

theorem buildSegments_chain (ss : List String) :
    ∀ t i j a b, (buildSegments ss t i).get? j = some a →
      (buildSegments ss t i).get? (j + 1) = some b → b.startTime = a.endTime := by
  induction ss with
  | nil => intro t i j a b h _; simp [buildSegments] at h
  | cons s0 rest ih =>
    intro t i j a b ha hb
    cases j with
    | zero =>
      simp only [buildSegments, List.get?] at ha hb
      cases ha
      have := buildSegments_head_start rest (t + segDuration s0) (i + 1) b hb
      rw [this]
    | succ j2 =>
      simp only [buildSegments, List.get?] at ha hb
      exact ih (t + segDuration s0) (i + 1) j2 a b ha hb

/-- C7: for every non-empty transcription text, the segmenter produces one
segment per sentence of the punctuation-then-whitespace split; segment `i` is
spoken by Agent when `i` is even and Customer when `i` is odd; each segment's
duration is `max(1, wordCount * 0.5)` seconds; the clock starts at zero and
each segment starts where the previous one ended; confidence is the fixed
default `0.9`.  The last conjunct checks the sentence split itself on a
concrete text. -/
theorem processCall_segmenter_correct (text : String) (_hne : text ≠ "") :
    (processCallSegments text).length = (sentenceSplit text).length ∧
    (∀ j s, (processCallSegments text).get? j = some s →
      s.speaker = if j % 2 = 0 then "Agent" else "Customer") ∧
    (∀ j s sentence, (sentenceSplit text).get? j = some sentence →
      (processCallSegments text).get? j = some s →
      s.endTime = s.startTime + max 1 ((wordCount sentence : ℚ) * (1 / 2))) ∧
    (∀ s, (processCallSegments text).get? 0 = some s → s.startTime = 0) ∧
    (∀ j a b, (processCallSegments text).get? j = some a →
      (processCallSegments text).get? (j + 1) = some b → b.startTime = a.endTime) ∧
    (∀ j s, (processCallSegments text).get? j = some s → s.confidence = some (9 / 10)) ∧
    sentenceSplit "Hi there. How are you? Good!" = ["Hi there.", "How are you?", "Good!"] := by
  refine ⟨buildSegments_length _ 0 0, ?_, ?_, ?_, ?_, ?_, by decide⟩
  · intro j s h
    have := buildSegments_speaker (sentenceSplit text) 0 0 j s h
    simpa using this
  · intro j s sentence hsent h
    exact buildSegments_duration (sentenceSplit text) 0 0 j s sentence hsent h
  · intro s h
    exact buildSegments_head_start (sentenceSplit text) 0 0 s h
  · intro j a b ha hb
    exact buildSegments_chain (sentenceSplit text) 0 0 j a b ha hb
  · intro j s h
    exact buildSegments_confidence (sentenceSplit text) 0 0 j s h

/-- Witness for the segmenter theorem on the text `Hello. World again.`:
two segments, Agent then Customer, with the second starting where the
first ends. -/
theorem processCall_segmenter_correct_witness :
    ((processCallSegments "Hello. World again.").get? 0).map Segment.speaker = some "Agent" ∧
    ((processCallSegments "Hello. World again.").get? 1).map Segment.speaker
      = some "Customer" ∧
    ((processCallSegments "Hello. World again.").get? 1).map Segment.startTime
      = ((processCallSegments "Hello. World again.").get? 0).map Segment.endTime := by
  have hmain := processCall_segmenter_correct "Hello. World again." (by decide)
  have hlen : (processCallSegments "Hello. World again.").length = 2 := by
    rw [hmain.1]; decide
  rcases h0 : (processCallSegments "Hello. World again.").get? 0 with _ | s0
  · rw [List.get?_eq_none] at h0; omega
  rcases h1 : (processCallSegments "Hello. World again.").get? 1 with _ | s1
  · rw [List.get?_eq_none] at h1; omega
  refine ⟨?_, ?_, ?_⟩
  · simp only [Option.map_some']
    rw [hmain.2.1 0 s0 h0]
    decide
  · simp only [Option.map_some']
    rw [hmain.2.1 1 s1 h1]
    decide
  · simp only [Option.map_some']
    rw [hmain.2.2.2.2.1 0 s0 s1 h0 h1]

/-! ## Lemmas about the masking realignment -/

theorem maskOne_speaker (s : Segment) (l : String) : (maskOne s l).speaker = s.speaker := by
  unfold maskOne; cases afterFirstChar l.data ':' <;> rfl

theorem maskOne_startTime (s : Segment) (l : String) : (maskOne s l).startTime = s.startTime := by
  unfold maskOne; cases afterFirstChar l.data ':' <;> rfl

theorem maskOne_endTime (s : Segment) (l : String) : (maskOne s l).endTime = s.endTime := by
  unfold maskOne; cases afterFirstChar l.data ':' <;> rfl

theorem maskOne_confidence (s : Segment) (l : String) :
    (maskOne s l).confidence = s.confidence := by
  unfold maskOne; cases afterFirstChar l.data ':' <;> rfl

theorem realignSegments_length (segs : List Segment) :
    ∀ lines, (realignSegments segs lines).length = segs.length := by
  induction segs with
  | nil => intro lines; cases lines <;> rfl
  | cons s ss ih =>
    intro lines
    cases lines with
    | nil => rfl
    | cons l ls => simp [realignSegments, ih]

theorem realignSegments_map {α : Type} (f : Segment → α)
    (hf : ∀ s l, f (maskOne s l) = f s) (segs : List Segment) :
    ∀ lines, (realignSegments segs lines).map f = segs.map f := by
  induction segs with
  | nil => intro lines; cases lines <;> rfl
  | cons s ss ih =>
    intro lines
    cases lines with
    | nil => rfl
    | cons l ls => simp [realignSegments, hf, ih]

theorem realignSegments_get?_past (segs : List Segment) :
    ∀ lines i, lines.length ≤ i →
      (realignSegments segs lines).get? i = segs.get? i := by
  induction segs with
  | nil => intro lines i _; cases lines <;> rfl
  | cons s ss ih =>
    intro lines i h
    cases lines with
    | nil => rfl
    | cons l ls =>
      cases i with
      | zero => simp at h
      | succ j =>
        simp only [realignSegments, List.get?]
        exact ih ls j (by simpa using h)

theorem realignSegments_get?_line (segs : List Segment) :
    ∀ lines i s l, segs.get? i = some s → lines.get? i = some l →
      (realignSegments segs lines).get? i = some (maskOne s l) := by
  induction segs with
  | nil => intro lines i s l hs _; simp at hs
  | cons s0 ss ih =>
    intro lines i s l hs hl
    cases lines with
    | nil => simp at hl
    | cons l0 ls =>
      cases i with
      | zero =>
        simp only [List.get?] at hs hl
        cases hs; cases hl; rfl
      | succ j =>
        simp only [List.get?] at hs hl
        simpa only [realignSegments, List.get?] using ih ls j s l hs hl

/-- C3: PiiMaskingService.maskSegments returns exactly one masked segment per
input segment, and every masked segment keeps the input segment's speaker,
start time, end time, and confidence; only the text may change. -/
theorem maskSegments_preserves_structure :
    ∀ (segments : List Segment) (options : MaskingOptions)
      (api : ApiResult (Option String)) (now : String),
      ((maskSegments segments options api now).maskedSegments.getD []).length
          = segments.length ∧
      ((maskSegments segments options api now).maskedSegments.getD []).map Segment.speaker
          = segments.map Segment.speaker ∧
      ((maskSegments segments options api now).maskedSegments.getD []).map Segment.startTime
          = segments.map Segment.startTime ∧
      ((maskSegments segments options api now).maskedSegments.getD []).map Segment.endTime
          = segments.map Segment.endTime ∧
      ((maskSegments segments options api now).maskedSegments.getD []).map Segment.confidence
          = segments.map Segment.confidence := by
  intro segments options api now
  simp only [maskSegments, Option.getD_some]
  exact ⟨realignSegments_length segments _,
    realignSegments_map Segment.speaker maskOne_speaker segments _,
    realignSegments_map Segment.startTime maskOne_startTime segments _,
    realignSegments_map Segment.endTime maskOne_endTime segments _,
    realignSegments_map Segment.confidence maskOne_confidence segments _⟩

/-- C5: in the realignment of maskSegments, a segment whose index lies past the
blank-line-split masked output, or whose line has no colon, keeps its original
text; every segment with a colon-bearing line at its own index receives the
trimmed text after the first colon of that line; and a segment's masked text
depends only on the line at its own index, so one misaligned line never changes
any other segment's text. -/
theorem maskSegments_misalignment_is_isolated :
    (∀ (segs : List Segment) (maskedText : String) (i : Nat) (s : Segment),
        segs.get? i = some s → (jsSplit maskedText "\n\n").length ≤ i →
        (realignSegments segs (jsSplit maskedText "\n\n")).get? i = some s) ∧
    (∀ (segs : List Segment) (maskedText : String) (i : Nat) (s : Segment) (l : String),
        segs.get? i = some s → (jsSplit maskedText "\n\n").get? i = some l →
        afterFirstChar l.data ':' = none →
        (realignSegments segs (jsSplit maskedText "\n\n")).get? i = some s) ∧
    (∀ (segs : List Segment) (maskedText : String) (i : Nat) (s : Segment) (l : String)
        (rest : List Char),
        segs.get? i = some s → (jsSplit maskedText "\n\n").get? i = some l →
        afterFirstChar l.data ':' = some rest →
        (realignSegments segs (jsSplit maskedText "\n\n")).get? i
          = some { s with text := jsTrim (String.mk rest) }) ∧
    (∀ (segs : List Segment) (t1 t2 : String) (i : Nat),
        (jsSplit t1 "\n\n").get? i = (jsSplit t2 "\n\n").get? i →
        ((realignSegments segs (jsSplit t1 "\n\n")).get? i).map Segment.text
          = ((realignSegments segs (jsSplit t2 "\n\n")).get? i).map Segment.text) := by
  refine ⟨?_, ?_, ?_, ?_⟩
  · intro segs maskedText i s hs hlen
    rw [realignSegments_get?_past segs _ i hlen]; exact hs
  · intro segs maskedText i s l hs hl hcol
    rw [realignSegments_get?_line segs _ i s l hs hl]
    simp [maskOne, hcol]
  · intro segs maskedText i s l rest hs hl hcol
    rw [realignSegments_get?_line segs _ i s l hs hl]
    simp [maskOne, hcol]
  · intro segs t1 t2 i h
    rcases hl1 : (jsSplit t1 "\n\n").get? i with _ | l
    · rw [hl1] at h
      have h1 := realignSegments_get?_past segs (jsSplit t1 "\n\n") i
        (List.get?_eq_none.mp hl1)
      have h2 := realignSegments_get?_past segs (jsSplit t2 "\n\n") i
        (List.get?_eq_none.mp h.symm)
      rw [h1, h2]
    · rw [hl1] at h
      rcases hs : segs.get? i with _ | s
      · have h1 : (realignSegments segs (jsSplit t1 "\n\n")).get? i = none := by
          rw [List.get?_eq_none] at hs ⊢
          rw [realignSegments_length]; exact hs
        have h2 : (realignSegments segs (jsSplit t2 "\n\n")).get? i = none := by
          rw [List.get?_eq_none] at hs ⊢
          rw [realignSegments_length]; exact hs
        rw [h1, h2]
      · rw [realignSegments_get?_line segs _ i s l hs hl1,
          realignSegments_get?_line segs _ i s l hs h.symm]

/-- Witness for the isolation theorem at a concrete three-segment transcript
whose masked output lost one blank-line separator and one colon. -/
theorem maskSegments_misalignment_is_isolated_witness :
    (realignSegments
        [⟨"Agent", "hello Jane", 0, 1, some (9/10)⟩,
         ⟨"Customer", "hi", 1, 2, some (9/10)⟩,
         ⟨"Agent", "bye", 2, 3, some (9/10)⟩]
        (jsSplit "Agent: hello [PATIENT_NAME]\n\nCustomer no colon here" "\n\n")).get? 2
      = some ⟨"Agent", "bye", 2, 3, some (9/10)⟩ ∧
    (realignSegments
        [⟨"Agent", "hello Jane", 0, 1, some (9/10)⟩,
         ⟨"Customer", "hi", 1, 2, some (9/10)⟩,
         ⟨"Agent", "bye", 2, 3, some (9/10)⟩]
        (jsSplit "Agent: hello [PATIENT_NAME]\n\nCustomer no colon here" "\n\n")).get? 1
      = some ⟨"Customer", "hi", 1, 2, some (9/10)⟩ := by
  constructor
  · exact maskSegments_misalignment_is_isolated.1
      [⟨"Agent", "hello Jane", 0, 1, some (9/10)⟩,
       ⟨"Customer", "hi", 1, 2, some (9/10)⟩,
       ⟨"Agent", "bye", 2, 3, some (9/10)⟩]
      "Agent: hello [PATIENT_NAME]\n\nCustomer no colon here" 2
      ⟨"Agent", "bye", 2, 3, some (9/10)⟩ rfl (by decide)
  · exact maskSegments_misalignment_is_isolated.2.1
      [⟨"Agent", "hello Jane", 0, 1, some (9/10)⟩,
       ⟨"Customer", "hi", 1, 2, some (9/10)⟩,
       ⟨"Agent", "bye", 2, 3, some (9/10)⟩]
      "Agent: hello [PATIENT_NAME]\n\nCustomer no colon here" 1
      ⟨"Customer", "hi", 1, 2, some (9/10)⟩ "Customer no colon here" rfl (by decide)
      (by decide)

/-- C9: when the masking request fails (the call throws, axios error or not)
or the response structure is unexpected, maskText returns the original text
unchanged, with model recorded as none-error and an empty itemsMasked map. -/
theorem maskText_error_returns_original :
    ∀ (text : String) (options : MaskingOptions) (now : String) (isAxiosError : Bool),
      maskText text options (.fail isAxiosError) now =
        { maskedText := text
          maskedSegments := none
          maskingMetadata :=
            { timestamp := now, modelUsed := "none - error occurred", itemsMasked := [] } } ∧
      maskText text options (.ok none) now =
        { maskedText := text
          maskedSegments := none
          maskingMetadata :=
            { timestamp := now, modelUsed := "none - error occurred", itemsMasked := [] } } := by
  intro text options now isAxiosError
  exact ⟨rfl, rfl⟩

/-! ## Score normalization (claims C1 and C10) -/

/-- A JSON number field that, when supplied, lies within the 0 to 100 scoring
range. -/
def optScoreInRange (o : Option Int) : Prop :=
  ∀ x, o = some x → 0 ≤ x ∧ x ≤ 100

theorem jsNumOr_inRange (a : Option Int) (d : Int) (ha : optScoreInRange a)
    (hd : 0 ≤ d ∧ d ≤ 100) : 0 ≤ jsNumOr a d ∧ jsNumOr a d ≤ 100 := by
  cases a with
  | none => exact hd
  | some x =>
    simp only [jsNumOr]
    by_cases hx : x = 0
    · rw [if_pos hx]; exact hd
    · rw [if_neg hx]; exact ha x rfl

/-- C1 counterexample: the normalizer neither clamps scores into the 0 to 100
range (a supplied 150 survives) nor defaults the sentiment overall score to
zero (an absent score defaults to 50). -/
theorem scores_unclamped_counterexample :
    (parseAgentPerformance (some ({ communicationScore := some 150 } : PerformanceJson))).communicationScore = 150 ∧
    ¬ ((parseAgentPerformance (some ({ communicationScore := some 150 } : PerformanceJson))).communicationScore ≤ 100) ∧
    (parseSentimentData (some ({} : SentimentJson))).overallScore = 50 ∧
    (parseSentimentData (some ({} : SentimentJson))).overallScore ≠ 0 := by
  decide

/-- C1 amended: every numeric score field is always present as an integer;
the four agent-performance scores default to 0 when absent while the
sentiment overall score defaults to 50; supplied values pass through
unclamped, so all outputs lie in the 0 to 100 range whenever all supplied
values do. -/
theorem scores_amended (sd : SentimentJson) (pd : PerformanceJson)
    (h1 : optScoreInRange sd.overallScore) (h2 : optScoreInRange sd.score)
    (h3 : optScoreInRange pd.communicationScore) (h4 : optScoreInRange pd.communication)
    (h5 : optScoreInRange pd.adherenceToProtocol) (h6 : optScoreInRange pd.adherence)
    (h7 : optScoreInRange pd.empathyScore) (h8 : optScoreInRange pd.empathy)
    (h9 : optScoreInRange pd.efficiencyScore) (h10 : optScoreInRange pd.efficiency) :
    (0 ≤ (parseSentimentData (some sd)).overallScore ∧
      (parseSentimentData (some sd)).overallScore ≤ 100) ∧
    (0 ≤ (parseAgentPerformance (some pd)).communicationScore ∧
      (parseAgentPerformance (some pd)).communicationScore ≤ 100) ∧
    (0 ≤ (parseAgentPerformance (some pd)).adherenceToProtocol ∧
      (parseAgentPerformance (some pd)).adherenceToProtocol ≤ 100) ∧
    (0 ≤ (parseAgentPerformance (some pd)).empathyScore ∧
      (parseAgentPerformance (some pd)).empathyScore ≤ 100) ∧
    (0 ≤ (parseAgentPerformance (some pd)).efficiencyScore ∧
      (parseAgentPerformance (some pd)).efficiencyScore ≤ 100) ∧
    (parseSentimentData (some ({} : SentimentJson))).overallScore = 50 ∧
    parseAgentPerformance (some ({} : PerformanceJson)) = createDefaultAgentPerformance ∧
    parseSentimentData none = createDefaultSentimentData ∧
    parseAgentPerformance none = createDefaultAgentPerformance := by
  refine ⟨?_, ?_, ?_, ?_, ?_, by decide, by decide, by decide, by decide⟩
  · exact jsNumOr_inRange sd.overallScore _ h1 (jsNumOr_inRange sd.score 50 h2 (by decide))
  · exact jsNumOr_inRange pd.communicationScore _ h3
      (jsNumOr_inRange pd.communication 0 h4 (by decide))
  · exact jsNumOr_inRange pd.adherenceToProtocol _ h5
      (jsNumOr_inRange pd.adherence 0 h6 (by decide))
  · exact jsNumOr_inRange pd.empathyScore _ h7 (jsNumOr_inRange pd.empathy 0 h8 (by decide))
  · exact jsNumOr_inRange pd.efficiencyScore _ h9
      (jsNumOr_inRange pd.efficiency 0 h10 (by decide))

/-- Witness for the amended score theorem at concrete supplied values. -/
theorem scores_amended_witness :
    (0 ≤ (parseSentimentData (some ({ overallScore := some 88 } : SentimentJson))).overallScore ∧
      (parseSentimentData (some ({ overallScore := some 88 } : SentimentJson))).overallScore ≤ 100) ∧
    (0 ≤ (parseAgentPerformance (some ({ communication := some 70 } : PerformanceJson))).communicationScore ∧
      (parseAgentPerformance (some ({ communication := some 70 } : PerformanceJson))).communicationScore ≤ 100) := by
  have h := scores_amended ({ overallScore := some 88 } : SentimentJson)
    ({ communication := some 70 } : PerformanceJson)
    (fun x hx => by cases hx; exact ⟨by decide, by decide⟩)
    (fun x hx => Option.noConfusion hx)
    (fun x hx => Option.noConfusion hx)
    (fun x hx => by cases hx; exact ⟨by decide, by decide⟩)
    (fun x hx => Option.noConfusion hx)
    (fun x hx => Option.noConfusion hx)
    (fun x hx => Option.noConfusion hx)
    (fun x hx => Option.noConfusion hx)
    (fun x hx => Option.noConfusion hx)
    (fun x hx => Option.noConfusion hx)
  exact ⟨h.1, h.2.1⟩

/-- C10: a model-supplied score of exactly 0 is treated as absent by the
JS or-chains: a sentiment overall score of 0 under either key is replaced by
the default 50 (or by the alias value when that is non-zero), and the same
coercion lets a zero primary key fall through to a non-zero alias for the
agent-performance scores. -/
theorem zero_scores_coerced_by_or :
    (parseSentimentData (some ({ overallScore := some 0 } : SentimentJson))).overallScore = 50 ∧
    (parseSentimentData (some ({ score := some 0 } : SentimentJson))).overallScore = 50 ∧
    (parseSentimentData (some ({ overallScore := some 0, score := some 0 } : SentimentJson))).overallScore = 50 ∧
    (parseSentimentData (some ({ overallScore := some 0, score := some 30 } : SentimentJson))).overallScore = 30 ∧
    (parseAgentPerformance (some ({ communicationScore := some 0, communication := some 7 } : PerformanceJson))).communicationScore = 7 ∧
    (parseAgentPerformance (some ({ communicationScore := some 0 } : PerformanceJson))).communicationScore = 0 := by
  decide

/-! ## Normalizer totality and fallback (claim C2) -/

/-- C2 counterexample: a model response with an unexpected structure (missing
or empty content array) makes analyzeTranscription raise instead of
returning an Analysis, because the thrown error is not an axios error and is
re-raised by the catch block. -/
theorem analyzeTranscription_raises_counterexample :
    analyzeTranscription (fun _ => none) (.ok none)
        ⟨"t1", "c1", "hello", []⟩ ⟨"c1", "key", "ts", 10, "a1"⟩ "id1" "now1"
      = Except.error "Failed to analyze transcription: Unexpected API response structure" := by
  rfl

/-- C2 amended: analyzeTranscription returns an Analysis without raising for
every text reply of the model (non-JSON and truncated JSON included, via the
parsing-error defaults) and for every axios failure of the upstream call,
in which case the result is the local fallback whose metadata records the
model as local-fallback; only a non-axios error (such as the
unexpected-response-structure throw) propagates to the caller. -/
theorem analyzeTranscription_amended :
    ∀ (jsonParse : String → Option AnalysisJson) (analysisText : String)
      (transcription : Transcription) (call : Call) (freshId now : String),
      (∃ a : Analysis,
        analyzeTranscription jsonParse (.ok (some analysisText)) transcription call freshId now
          = Except.ok a) ∧
      analyzeTranscription jsonParse (.fail true) transcription call freshId now
        = Except.ok (createFallbackAnalysis transcription call freshId now) ∧
      (createFallbackAnalysis transcription call freshId now).metadata.analysisModel
        = "local-fallback" := by
  intro jsonParse analysisText transcription call freshId now
  exact ⟨⟨_, rfl⟩, rfl, rfl⟩

/-! ## Fallback disposition (claim C8) -/

/-- C8 counterexample: the fallback disposition is the same string whether or
not the transcript mentions a denial, so there is no denial-specific
disposition; it is the call summary that varies. -/
theorem fallback_disposition_counterexample :
    jsIncludes (jsToLower "The claim was denied") "denied" = true ∧
    jsIncludes (jsToLower "hello there") "denied" = false ∧
    jsIncludes (jsToLower "hello there") "denial" = false ∧
    (createFallbackAnalysis ⟨"t1", "c1", "The claim was denied", []⟩
        ⟨"c1", "k", "ts", 10, "a"⟩ "id" "now").disposition
      = (createFallbackAnalysis ⟨"t2", "c2", "hello there", []⟩
        ⟨"c2", "k", "ts", 10, "a"⟩ "id" "now").disposition := by
  decide

/-- C8 amended: createFallbackAnalysis always produces the fixed disposition
Prior Authorization Follow-up; the denial keywords instead select the call
summary: a denial-specific summary when denied or denial occurs in the
lower-cased transcript, and a generic default otherwise. -/
theorem fallback_fixed_disposition (transcription : Transcription) (call : Call)
    (freshId now : String) :
    (createFallbackAnalysis transcription call freshId now).disposition
      = "Prior Authorization Follow-up" ∧
    ((jsIncludes (jsToLower transcription.fullText) "denied"
        || jsIncludes (jsToLower transcription.fullText) "denial") = true →
      (createFallbackAnalysis transcription call freshId now).callSummary
        = "Inquiry about denied medication authorization for Ozempic.") ∧
    ((jsIncludes (jsToLower transcription.fullText) "denied"
        || jsIncludes (jsToLower transcription.fullText) "denial") = false →
      (createFallbackAnalysis transcription call freshId now).callSummary
        = "Inquiry about medication authorization status.") := by
  refine ⟨rfl, ?_, ?_⟩ <;> intro h <;> simp [createFallbackAnalysis, h]

/-- Witness for the fallback disposition theorem on transcripts with and
without a denial keyword. -/
theorem fallback_fixed_disposition_witness :
    (createFallbackAnalysis ⟨"t3", "c3", "it was a DENIAL of coverage", []⟩
        ⟨"c3", "k", "ts", 10, "a"⟩ "id" "now").callSummary
      = "Inquiry about denied medication authorization for Ozempic." ∧
    (createFallbackAnalysis ⟨"t4", "c4", "all approved", []⟩
        ⟨"c4", "k", "ts", 10, "a"⟩ "id" "now").callSummary
      = "Inquiry about medication authorization status." := by
  constructor
  · exact (fallback_fixed_disposition ⟨"t3", "c3", "it was a DENIAL of coverage", []⟩
      ⟨"c3", "k", "ts", 10, "a"⟩ "id" "now").2.1 (by decide)
  · exact (fallback_fixed_disposition ⟨"t4", "c4", "all approved", []⟩
      ⟨"c4", "k", "ts", 10, "a"⟩ "id" "now").2.2 (by decide)

/-! ## Heuristic extractor activation (claim C6) -/

/-- C6: the heuristic extractor runs exactly when the analysis has no
structured drug mentions and a non-empty clinical context: non-empty model
mentions are displayed unchanged, empty mentions with a non-empty context are
replaced by the extractor output, and on the sample context the extractor
finds Ozempic with a positive count. -/
theorem drug_extractor_activation :
    (∀ (dm : List DrugMentionRec) (ctx : Option String), dm ≠ [] →
      displayedDrugMentions (some dm) ctx = dm) ∧
    (∀ ctx : String, ctx ≠ "" →
      displayedDrugMentions (some []) (some ctx) = extractDrugMentionsFromContext ctx) ∧
    (∀ dm : List DrugMentionRec, displayedDrugMentions (some dm) none = dm) ∧
    (extractDrugMentionsFromContext "Patient started Ozempic 0.5mg weekly.").any
      (fun m => m.name == "Ozempic" && decide (m.count ≥ 1)) = true := by
  refine ⟨?_, ?_, ?_, by decide⟩
  · intro dm ctx h
    simp only [displayedDrugMentions, Option.getD_some]
    rw [if_neg (fun hc => h (List.length_eq_zero.mp hc.1))]
  · intro ctx h
    simp only [displayedDrugMentions, Option.getD_some]
    rw [if_pos ⟨rfl, h⟩]
  · intro dm
    simp only [displayedDrugMentions, Option.getD_some]
    rw [if_neg (fun hc => hc.2 rfl)]

/-- Witness for the extractor-activation theorem on the sample context. -/
theorem drug_extractor_activation_witness :
    displayedDrugMentions (some [⟨"Jardiance", 2, "ctx"⟩])
        (some "Patient started Ozempic 0.5mg weekly.") = [⟨"Jardiance", 2, "ctx"⟩] ∧
    displayedDrugMentions (some []) (some "Patient started Ozempic 0.5mg weekly.")
      = extractDrugMentionsFromContext "Patient started Ozempic 0.5mg weekly." := by
  exact ⟨drug_extractor_activation.1 [⟨"Jardiance", 2, "ctx"⟩]
      (some "Patient started Ozempic 0.5mg weekly.") (by decide),
    drug_extractor_activation.2.1 "Patient started Ozempic 0.5mg weekly." (by decide)⟩

/-! ## Re-analysis projection (claim C4) -/

theorem rowsFor_deleteRowsFor {α : Type} (rows : List (String × α)) (callId : String) :
    rowsFor (deleteRowsFor rows callId) callId = [] := by
  simp only [rowsFor, deleteRowsFor, List.filter_filter]
  rw [List.filter_eq_nil_iff]
  intro r _
  simp [bne]

theorem rowsFor_append {α : Type} (a b : List (String × α)) (callId : String) :
    rowsFor (a ++ b) callId = rowsFor a callId ++ rowsFor b callId := by
  simp [rowsFor, List.filter_append]

theorem rowsFor_map_const_key {α : Type} (l : List α) (callId : String) :
    rowsFor (l.map (fun d => (callId, d))) callId = l.map (fun d => (callId, d)) := by
  refine List.filter_eq_self.mpr ?_
  intro r hr
  rcases List.mem_map.mp hr with ⟨d, _, rfl⟩
  simp

theorem rowsFor_eq_nil_of_no_key {α : Type} (rows : List (String × α)) (callId : String)
    (h : ∀ r ∈ rows, ¬ r.1 = callId) : rowsFor rows callId = [] := by
  rw [rowsFor, List.filter_eq_nil_iff]
  intro r hr
  simpa using h r hr

theorem analyzeRoutePost_success_state (db : DbState) (callId : String)
    (analysis : Analysis) :
    (analyzeRoutePost db callId (some analysis) false).2 = true ∧
    (analyzeRoutePost db callId (some analysis) false).1.drugRows
      = (if db.analyses.any (fun r => r.1 == callId) then deleteRowsFor db.drugRows callId
         else db.drugRows)
        ++ analysis.clinicalSummary.drugMentions.map (fun d => (callId, d)) ∧
    (analyzeRoutePost db callId (some analysis) false).1.flagRows
      = (if db.analyses.any (fun r => r.1 == callId) then deleteRowsFor db.flagRows callId
         else db.flagRows)
        ++ analysis.flags.map (fun f => (callId, f)) := by
  refine ⟨rfl, ?_, ?_⟩ <;>
  · by_cases hex : db.analyses.any (fun r => r.1 == callId) = true
    · simp [analyzeRoutePost, hex]
    · simp [analyzeRoutePost, hex]

/-- C4: for the analyze POST handler, when the run commits, the drug-mention
rows for the call are exactly one per mention of the new analysis and the
flag rows one per flag (all prior rows for that call having been deleted
first); and when the run fails at any point before commit (the analysis call
throwing or any insert throwing), the database state is unchanged.  The
hypotheses state the standing invariant that derived rows exist only for
calls that have an analysis row. -/
theorem reanalysis_replaces_rows (db : DbState) (callId : String) (analysis : Analysis)
    (hDrug : ∀ r ∈ db.drugRows, r.1 = callId →
      db.analyses.any (fun x => x.1 == callId) = true)
    (hFlag : ∀ r ∈ db.flagRows, r.1 = callId →
      db.analyses.any (fun x => x.1 == callId) = true) :
    ((analyzeRoutePost db callId (some analysis) false).2 = true ∧
      (rowsFor (analyzeRoutePost db callId (some analysis) false).1.drugRows callId).length
        = analysis.clinicalSummary.drugMentions.length ∧
      (rowsFor (analyzeRoutePost db callId (some analysis) false).1.flagRows callId).length
        = analysis.flags.length) ∧
    (∀ (res : Option Analysis) (insertFailure : Bool),
      res = none ∨ insertFailure = true →
      (analyzeRoutePost db callId res insertFailure).1 = db) := by
  obtain ⟨hcommit, hdrug2, hflag2⟩ := analyzeRoutePost_success_state db callId analysis
  constructor
  · refine ⟨hcommit, ?_, ?_⟩
    · rw [hdrug2, rowsFor_append, rowsFor_map_const_key]
      by_cases hex : db.analyses.any (fun r => r.1 == callId) = true
      · rw [if_pos hex, rowsFor_deleteRowsFor]
        simp
      · rw [if_neg hex,
          rowsFor_eq_nil_of_no_key db.drugRows callId (fun r hr hk => hex (hDrug r hr hk))]
        simp
    · rw [hflag2, rowsFor_append, rowsFor_map_const_key]
      by_cases hex : db.analyses.any (fun r => r.1 == callId) = true
      · rw [if_pos hex, rowsFor_deleteRowsFor]
        simp
      · rw [if_neg hex,
          rowsFor_eq_nil_of_no_key db.flagRows callId (fun r hr hk => hex (hFlag r hr hk))]
        simp
  · intro res insertFailure h
    rcases h with h | h
    · subst h; rfl
    · subst h
      cases res with
      | none => rfl
      | some a => rfl

/-- Witness for the re-analysis theorem on a concrete database with a prior
analysis, one stale drug row for the call, and a new one-mention analysis. -/
theorem reanalysis_replaces_rows_witness :
    (rowsFor (analyzeRoutePost
        { analyses := [("c1", "a-old")]
          drugRows := [("c1", ⟨"Ozempic", 2, "x"⟩), ("c2", ⟨"Jardiance", 1, "z"⟩)]
          flagRows := [("c1", ⟨"t", "d", "low"⟩)] }
        "c1" (some (createFallbackAnalysis ⟨"t1", "c1", "patient uses ozempic", []⟩
          ⟨"c1", "k", "ts", 10, "a"⟩ "a-new" "now")) false).1.drugRows "c1").length = 1 := by
  have h := reanalysis_replaces_rows
    { analyses := [("c1", "a-old")]
      drugRows := [("c1", ⟨"Ozempic", 2, "x"⟩), ("c2", ⟨"Jardiance", 1, "z"⟩)]
      flagRows := [("c1", ⟨"t", "d", "low"⟩)] }
    "c1" (createFallbackAnalysis ⟨"t1", "c1", "patient uses ozempic", []⟩
      ⟨"c1", "k", "ts", 10, "a"⟩ "a-new" "now") (by decide) (by decide)
  rw [h.1.2.1]
  decide

end CallAnalysis
